import Mathlib

set_option maxRecDepth 100000

/-!
Shallow embedding of the grid-cell extraction engine `smartCropFromClick`
(STEPs 1-10) together with its helpers `detectBorder`, the projection
profiles, `findAllLines`, `selectBestDividers`, `getLineThickness`, the
cell-boundary construction, the click resolver, `trimCell` and the final
safety clamp.  JavaScript numbers are modelled as exact rationals `ℚ`,
pixel coordinates as `ℤ`/`ℕ`.  Loops are modelled as fuel-indexed
structural recursions where the fuel is an exact bound on the number of
iterations, so the functions compute the same values as the source loops.
-/

namespace SmartCrop

/-- A decoded raster image: positive dimensions are supplied as hypotheses
where claims need them.  `B x y` models
`getBrightness(x, y) = (data[i] + data[i+1] + data[i+2]) / 3`. -/
structure Img where
  width : ℕ
  height : ℕ
  B : ℤ → ℤ → ℚ

/-- Number of iterations of a strided loop `for (i = 0; i < len; i += stride)`. -/
def strideCount (len stride : ℕ) : ℕ := (len + stride - 1) / stride

/-- Count of the sampled positions `0, stride, 2·stride, … < len` whose sample
exceeds `thr`. -/
def countAbove (f : ℤ → ℚ) (len stride : ℕ) (thr : ℚ) : ℕ :=
  ((List.range (strideCount len stride)).filter fun k =>
    decide (thr < f ((stride : ℤ) * k))).length

/-- White-pixel fraction used by the border scans:
`whitePixels / (lineLength / stride)`.  (For `len = 0` the source divides by
zero producing `NaN`, whose comparisons are all false; `ℚ` division by zero
yields `0`, and the fraction is only ever compared with positive constants,
so the behaviour agrees.) -/
def whiteFrac (f : ℤ → ℚ) (len stride : ℕ) (thr : ℚ) : ℚ :=
  (countAbove f len stride thr : ℚ) / ((len : ℚ) / (stride : ℚ))

/-- Brightness along a scan line at depth `p`, perpendicular offset `i`:
vertical scans read `getBrightness(pos, i)`, horizontal ones
`getBrightness(i, pos)`. -/
def lineAt (img : Img) (isVertical : Bool) (p i : ℤ) : ℚ :=
  if isVertical then img.B p i else img.B i p

/-- Image-space position of scan depth `pos`; `fromEnd` scans start at the far
edge (`width - 1 - pos` resp. `height - 1 - pos`). -/
def actualPos (img : Img) (isVertical fromEnd : Bool) (pos : ℕ) : ℤ :=
  if fromEnd then
    (if isVertical then (img.width : ℤ) - 1 - pos else (img.height : ℤ) - 1 - pos)
  else (pos : ℤ)

/-- The direct whiteness test of `detectBorder`: stride-3 sampling, threshold
`BORDER_THRESHOLD = 235`, ratio `≥ MIN_BORDER_RATIO = 0.9`. -/
def borderDirect (img : Img) (isVertical fromEnd : Bool) (pos : ℕ) : Bool :=
  decide ((0.9 : ℚ) ≤ whiteFrac (lineAt img isVertical (actualPos img isVertical fromEnd pos))
    (if isVertical then img.height else img.width) 3 235)

/-- The lookahead whiteness test of `detectBorder`: stride-5 sampling, same
threshold and ratio. -/
def borderLook (img : Img) (isVertical fromEnd : Bool) (pos : ℕ) : Bool :=
  decide ((0.9 : ℚ) ≤ whiteFrac (lineAt img isVertical (actualPos img isVertical fromEnd pos))
    (if isVertical then img.height else img.width) 5 235)

/-- The scan loop of `detectBorder`.  `r` is the number of remaining depths
(`maxScan - pos`), so the source guard `pos + check < maxScan` becomes
`check ≤ r - 1`, i.e. `c ≤ r` fails exactly when the source guard does.
A qualifying depth sets `borderEnd = pos + 1`; a failing depth breaks the
loop unless one of the next (at most) 3 in-range depths passes the lookahead
test. -/
def detectBorderGo (direct look : ℕ → Bool) : ℕ → ℕ → ℕ → ℕ
  | 0, _, borderEnd => borderEnd
  | r + 1, pos, borderEnd =>
    if direct pos then detectBorderGo direct look r (pos + 1) (pos + 1)
    else if [1, 2, 3].any fun c => decide (c ≤ r) && look (pos + c) then
      detectBorderGo direct look r (pos + 1) borderEnd
    else borderEnd

/-- STEP 1 `detectBorder`: scan inward up to `Math.floor(dim * 0.15)` depths,
returning the first-run border extent on that edge. -/
def detectBorder (img : Img) (isVertical fromEnd : Bool) : ℕ :=
  let maxScan := (⌊((if isVertical then (img.width : ℚ) else (img.height : ℚ)) * 0.15)⌋).toNat
  detectBorderGo (borderDirect img isVertical fromEnd) (borderLook img isVertical fromEnd)
    maxScan 0 0

def borderLeft (img : Img) : ℕ := detectBorder img true false

def borderRight (img : Img) : ℕ := detectBorder img true true

def borderTop (img : Img) : ℕ := detectBorder img false false

def borderBottom (img : Img) : ℕ := detectBorder img false true

def contentLeft (img : Img) : ℕ := borderLeft img

def contentTop (img : Img) : ℕ := borderTop img

/-- Width of the content region: `(width - borderRight) - borderLeft`. -/
def contentWidth (img : Img) : ℕ := img.width - borderRight img - borderLeft img

/-- Height of the content region: `(height - borderBottom) - borderTop`. -/
def contentHeight (img : Img) : ℕ := img.height - borderBottom img - borderTop img

/-- STEP 2 column projection profile over the content region (full average). -/
def colAvg (img : Img) (x : ℕ) : ℚ :=
  (∑ y in Finset.range (contentHeight img),
    img.B ((contentLeft img : ℤ) + x) ((contentTop img : ℤ) + y)) / (contentHeight img : ℚ)

/-- STEP 2 row projection profile over the content region (full average). -/
def rowAvg (img : Img) (y : ℕ) : ℚ :=
  (∑ x in Finset.range (contentWidth img),
    img.B ((contentLeft img : ℤ) + x) ((contentTop img : ℤ) + y)) / (contentWidth img : ℚ)

/-- A contiguous bright run in a profile (`interface LineRegion`). -/
structure LineRegion where
  start : ℕ
  stop : ℕ
  center : ℚ
  thickness : ℕ
  avgBrightness : ℚ
deriving DecidableEq

/-- STEP 3 run-length scan of `findAllLines`, as a one-index-per-fuel-step
state machine.  The state is `none` outside a bright run and
`some (runStart, brightnessSum)` inside one.  A run is closed at the first
index `i` with `profile[i] ≤ GUTTER_THRESHOLD = 220` and is kept only when
`thickness ≥ MIN_LINE_THICKNESS = 2`, `runStart > MIN_GAP_BETWEEN_LINES = 20`
and `runEnd < len - 20`.  A run still open when the scan reaches `i = len`
(fuel 0 with `fuel + i = len`) has `runEnd = len`, which always fails
`runEnd < len - 20`, so dropping it is exactly the source behaviour. -/
def findLinesGo (profile : ℕ → ℚ) (len : ℕ) : ℕ → ℕ → Option (ℕ × ℚ) → List LineRegion
  | 0, _, _ => []
  | f + 1, i, none =>
    if 220 < profile i then findLinesGo profile len f (i + 1) (some (i, profile i))
    else findLinesGo profile len f (i + 1) none
  | f + 1, i, some s =>
    if 220 < profile i then findLinesGo profile len f (i + 1) (some (s.1, s.2 + profile i))
    else if 2 ≤ i - s.1 ∧ 20 < s.1 ∧ i < len - 20 then
      ⟨s.1, i, ((s.1 : ℚ) + (i : ℚ)) / 2, i - s.1, s.2 / ((i - s.1 : ℕ) : ℚ)⟩ ::
        findLinesGo profile len f (i + 1) none
    else findLinesGo profile len f (i + 1) none

/-- STEP 3 `findAllLines` on a profile of length `len`. -/
def findAllLines (profile : ℕ → ℚ) (len : ℕ) : List LineRegion :=
  findLinesGo profile len len 0 none

/-- The pair score of STEP 4 (`>2` candidates case), exactly as written in the
source: `positionScore - sizeVariance * 2 + lineQuality`. -/
def codeScore (totalLength : ℚ) (a b : LineRegion) : ℚ :=
  let first := a.center
  let second := b.center
  let avgCellSize := totalLength / 3
  let sizeVariance := |first - avgCellSize| + |second - first - avgCellSize| +
    |totalLength - second - avgCellSize|
  let positionScore := -|first - totalLength / 3| - |second - totalLength * 2 / 3|
  let lineQuality := ((a.thickness : ℚ) + (b.thickness : ℚ)) * 0.5 +
    (a.avgBrightness + b.avgBrightness) * 0.1
  positionScore - sizeVariance * 2 + lineQuality

/-- All unordered pairs `(i, j)`, `i < j`, in the enumeration order of the
nested loops of the source (`i` outer ascending, `j` inner ascending). -/
def pairsOf : List LineRegion → List (LineRegion × LineRegion)
  | [] => []
  | x :: xs => (xs.map fun y => (x, y)) ++ pairsOf xs

/-- The best-pair fold of STEP 4: `bestScore` starts at `-Infinity` (modelled
by `none`), and a pair replaces the incumbent only on a strictly greater
score. -/
def selGo (N : ℚ) : List (LineRegion × LineRegion) → ℚ × ℚ → Option ℚ → ℚ × ℚ
  | [], best, _ => best
  | q :: ps, _, none => selGo N ps (q.1.center, q.2.center) (some (codeScore N q.1 q.2))
  | q :: ps, best, some b =>
    if b < codeScore N q.1 q.2 then
      selGo N ps (q.1.center, q.2.center) (some (codeScore N q.1 q.2))
    else selGo N ps best (some b)

/-- STEP 4 `selectBestDividers` with its four cases: geometric fallback,
single candidate, exactly two (sorted ascending by center), and the scored
search over all pairs. -/
def selectBestDividers (lines : List LineRegion) (totalLength : ℕ) : ℚ × ℚ :=
  let N : ℚ := (totalLength : ℚ)
  match lines with
  | [] => (N / 3, N * 2 / 3)
  | [l] => if l.center < N / 2 then (l.center, N * 2 / 3) else (N / 3, l.center)
  | [a, b] => if a.center ≤ b.center then (a.center, b.center) else (b.center, a.center)
  | _ => selGo N (pairsOf lines) (N / 3, N * 2 / 3) none

/-- STEP 5 `getLineThickness`: thickness of the first line whose center is
within its own thickness of `position`; `0` when no line matches (pure
geometric cut). -/
def getLineThickness : List LineRegion → ℚ → ℚ
  | [], _ => 0
  | l :: ls, position =>
    if |l.center - position| < (l.thickness : ℚ) then (l.thickness : ℚ)
    else getLineThickness ls position

/-- STEP 6 cell boundaries on one axis, in content coordinates. -/
def mkBoundaries (d1 d2 t1 t2 : ℚ) (n : ℕ) : (ℤ × ℤ) × (ℤ × ℤ) × (ℤ × ℤ) :=
  ((0, ⌊d1 - t1 / 2⌋), (⌈d1 + t1 / 2⌉, ⌊d2 - t2 / 2⌋), (⌈d2 + t2 / 2⌉, (n : ℤ)))

/-- Indexing `colBoundaries[i]` / `rowBoundaries[i]` for `i = 0, 1, 2`. -/
def boundaryAt (b : (ℤ × ℤ) × (ℤ × ℤ) × (ℤ × ℤ)) (i : ℕ) : ℤ × ℤ :=
  if i = 0 then b.1 else if i = 1 then b.2.1 else b.2.2

/-- STEP 7 nearest-center scan on one axis.  The accumulator `none` models the
initial `minDist = Infinity`, which every finite distance beats; a later
index replaces the incumbent only on a strictly smaller distance. -/
def resGo (p : ℚ) : List (ℕ × (ℤ × ℤ)) → ℕ → Option ℚ → ℕ
  | [], t, _ => t
  | (i, b) :: rest, _, none =>
    resGo p rest i (some |p - ((b.1 : ℚ) + (b.2 : ℚ)) / 2|)
  | (i, b) :: rest, t, some m =>
    if |p - ((b.1 : ℚ) + (b.2 : ℚ)) / 2| < m then
      resGo p rest i (some |p - ((b.1 : ℚ) + (b.2 : ℚ)) / 2|)
    else resGo p rest t (some m)

/-- STEP 7 resolver for one axis over the three cell ranges, indices 0, 1, 2. -/
def resolveAxis (b : (ℤ × ℤ) × (ℤ × ℤ) × (ℤ × ℤ)) (p : ℚ) : ℕ :=
  resGo p [(0, b.1), (1, b.2.1), (2, b.2.2)] 0 none

/-- Number of samples of the strided trim loop `for (v = a; v < a + len; v += 3)`. -/
def trimSamples (len : ℤ) : ℕ := (⌈(len : ℚ) / 3⌉).toNat

/-- Count of near-white samples (`> TRIM_THRESHOLD = 240`) along a strided
edge line, `f` giving the brightness at offset `v` from the edge start. -/
def trimWhite (f : ℤ → ℚ) (len : ℤ) : ℕ :=
  ((List.range (trimSamples len)).filter fun k => decide ((240 : ℚ) < f (3 * (k : ℤ)))).length

/-- The trim predicate `whitePixels / (len / 3) > TRIM_RATIO = 0.92`. -/
def trimTest (f : ℤ → ℚ) (len : ℤ) : Bool :=
  decide ((0.92 : ℚ) < (trimWhite f len : ℚ) / ((len : ℤ) / (3 : ℚ) : ℚ))

/-- Trim-left loop: while `cropW > 50` and the column at `cropX` is
predominantly white, advance `cropX` and shrink `cropW`. -/
def trimLeftGo (img : Img) (Y H : ℤ) : ℕ → ℤ → ℤ → ℤ × ℤ
  | 0, X, W => (X, W)
  | f + 1, X, W =>
    if 50 < W ∧ trimTest (fun v => img.B X (Y + v)) H then
      trimLeftGo img Y H f (X + 1) (W - 1)
    else (X, W)

/-- Trim-right loop: while `cropW > 50` and the column at `cropX + cropW - 1`
is predominantly white, shrink `cropW`. -/
def trimRightGo (img : Img) (Y H X : ℤ) : ℕ → ℤ → ℤ
  | 0, W => W
  | f + 1, W =>
    if 50 < W ∧ trimTest (fun v => img.B (X + W - 1) (Y + v)) H then
      trimRightGo img Y H X f (W - 1)
    else W

/-- Trim-top loop. -/
def trimTopGo (img : Img) (X W : ℤ) : ℕ → ℤ → ℤ → ℤ × ℤ
  | 0, Y, H => (Y, H)
  | f + 1, Y, H =>
    if 50 < H ∧ trimTest (fun v => img.B (X + v) Y) W then
      trimTopGo img X W f (Y + 1) (H - 1)
    else (Y, H)

/-- Trim-bottom loop. -/
def trimBottomGo (img : Img) (X W Y : ℤ) : ℕ → ℤ → ℤ
  | 0, H => H
  | f + 1, H =>
    if 50 < H ∧ trimTest (fun v => img.B (X + v) (Y + H - 1)) W then
      trimBottomGo img X W Y f (H - 1)
    else H

/-- STEP 9 `trimCell()`: trim left, right, top, bottom in that order.  Each
loop shrinks its dimension by 1 per iteration and is guarded by
`dimension > 50`, so `dimension.toNat` units of fuel are never exhausted
before the guard fails: the fuelled recursion equals the source `while`. -/
def trimCell (img : Img) (X Y W H : ℤ) : ℤ × ℤ × ℤ × ℤ :=
  let lw := trimLeftGo img Y H W.toNat X W
  let W2 := trimRightGo img Y H lw.1 lw.2.toNat lw.2
  let th := trimTopGo img lw.1 W2 H.toNat Y H
  let H2 := trimBottomGo img lw.1 W2 th.1 th.2.toNat th.2
  (lw.1, th.1, W2, H2)

/-- STEP 9 safety checks: the final clamp of the crop rectangle. -/
def clampRect (w h : ℕ) (X Y W H : ℤ) : ℤ × ℤ × ℤ × ℤ :=
  let X' := max 0 (min X ((w : ℤ) - 10))
  let Y' := max 0 (min Y ((h : ℤ) - 10))
  (X', Y', max 50 (min W ((w : ℤ) - X')), max 50 (min H ((h : ℤ) - Y')))

def verticalLines (img : Img) : List LineRegion := findAllLines (colAvg img) (contentWidth img)

def horizontalLines (img : Img) : List LineRegion := findAllLines (rowAvg img) (contentHeight img)

def vDivs (img : Img) : ℚ × ℚ := selectBestDividers (verticalLines img) (contentWidth img)

def hDivs (img : Img) : ℚ × ℚ := selectBestDividers (horizontalLines img) (contentHeight img)

def colBounds (img : Img) : (ℤ × ℤ) × (ℤ × ℤ) × (ℤ × ℤ) :=
  mkBoundaries (vDivs img).1 (vDivs img).2
    (getLineThickness (verticalLines img) (vDivs img).1)
    (getLineThickness (verticalLines img) (vDivs img).2) (contentWidth img)

def rowBounds (img : Img) : (ℤ × ℤ) × (ℤ × ℤ) × (ℤ × ℤ) :=
  mkBoundaries (hDivs img).1 (hDivs img).2
    (getLineThickness (horizontalLines img) (hDivs img).1)
    (getLineThickness (horizontalLines img) (hDivs img).2) (contentHeight img)

/-- STEP 7 content-local click abscissa `clickXPercent * width - contentLeft`. -/
def clickXPx (img : Img) (clickXPercent : ℚ) : ℚ :=
  clickXPercent * (img.width : ℚ) - (contentLeft img : ℚ)

/-- STEP 7 content-local click ordinate. -/
def clickYPx (img : Img) (clickYPercent : ℚ) : ℚ :=
  clickYPercent * (img.height : ℚ) - (contentTop img : ℚ)

def targetCol (img : Img) (clickXPercent : ℚ) : ℕ :=
  resolveAxis (colBounds img) (clickXPx img clickXPercent)

def targetRow (img : Img) (clickYPercent : ℚ) : ℕ :=
  resolveAxis (rowBounds img) (clickYPx img clickYPercent)

/-- STEP 8 crop rectangle before trimming, back in image coordinates. -/
def cropBefore (img : Img) (cx cy : ℚ) : ℤ × ℤ × ℤ × ℤ :=
  let cb := boundaryAt (colBounds img) (targetCol img cx)
  let rb := boundaryAt (rowBounds img) (targetRow img cy)
  ((contentLeft img : ℤ) + cb.1, (contentTop img : ℤ) + rb.1, cb.2 - cb.1, rb.2 - rb.1)

/-- The full pipeline `smartCropFromClick` (STEPs 1-9), returning the final
crop rectangle `(cropX, cropY, cropW, cropH)` that STEP 10 renders.  The
decode failure (`img.onerror`) and the unobtainable-context failures are the
only rejection paths of the source and lie outside this pure computation:
given a decoded image the computation below is total. -/
def smartCropFromClick (img : Img) (cx cy : ℚ) : ℤ × ℤ × ℤ × ℤ :=
  let c := cropBefore img cx cy
  let t := trimCell img c.1 c.2.1 c.2.2.1 c.2.2.2
  clampRect img.width img.height t.1 t.2.1 t.2.2.1 t.2.2.2

/-! Concrete inputs used by counterexamples and witnesses. -/

/-- A 20×20 all-dark image (every pixel has brightness 0). -/
def darkImg20 : Img := ⟨20, 20, fun _ _ => 0⟩

/-- A 30×30 all-dark image. -/
def darkImg30 : Img := ⟨30, 30, fun _ _ => 0⟩

/-- A 60×60 all-white image (every pixel has brightness 255). -/
def whiteImg60 : Img := ⟨60, 60, fun _ _ => 255⟩

/-- A 60×60 composite with 2-pixel near-white gutters at columns `[24, 26)`,
`[34, 36)` and rows `[24, 26)`, `[34, 36)`: gutter centers 25 and 35, i.e.
shifted 5px (8.3% of 60, within 10%) off the canonical marks 20 and 40. -/
def bandImg60 : Img :=
  ⟨60, 60, fun x y =>
    if (24 ≤ x ∧ x < 26) ∨ (34 ≤ x ∧ x < 36) ∨ (24 ≤ y ∧ y < 26) ∨ (34 ≤ y ∧ y < 36)
    then 255 else 0⟩

/-- A brightness profile of length 86 with bright runs `[21, 60)` and `[61, 65)`. -/
def prof86 : ℕ → ℚ := fun i => if (21 ≤ i ∧ i < 60) ∨ (61 ≤ i ∧ i < 65) then 255 else 0

/-- Modelled from the claim text of C7: the already-border-stripped sub-image,
i.e. the restriction of the image to the content region produced by the first
border-detection pass. -/
def subImage (img : Img) : Img :=
  ⟨contentWidth img, contentHeight img,
    fun x y => img.B (x + (contentLeft img : ℤ)) (y + (contentTop img : ℤ))⟩

/-- Center of a cell range, as used by the STEP 7 resolver. -/
def rangeCenter (r : ℤ × ℤ) : ℚ := ((r.1 : ℚ) + (r.2 : ℚ)) / 2

/-- Width (span) of the `i`-th cell range on an axis. -/
def cellSpan (b : (ℤ × ℤ) × (ℤ × ℤ) × (ℤ × ℤ)) (i : ℕ) : ℤ :=
  (boundaryAt b i).2 - (boundaryAt b i).1

/-- Score formula written exactly as in claim C4:
`-|cellSizeVariance| * 2 - |posA - N/3| - |posB - 2N/3|
 + 0.5*(thicknessA + thicknessB) + 0.1*(brightnessA + brightnessB)`,
where `cellSizeVariance` sums the absolute deviations of the three resulting
cell spans from `N/3`. -/
def specScore (N : ℚ) (a b : LineRegion) : ℚ :=
  let cellSizeVariance :=
    |a.center - N / 3| + |(b.center - a.center) - N / 3| + |(N - b.center) - N / 3| ;
  -|cellSizeVariance| * 2 - |a.center - N / 3| - |b.center - 2 * N / 3| +
    0.5 * ((a.thickness : ℚ) + (b.thickness : ℚ)) +
    0.1 * (a.avgBrightness + b.avgBrightness)

/-! General-purpose lemmas. -/

lemma specScore_eq_codeScore (N : ℚ) (a b : LineRegion) :
    specScore N a b = codeScore N a b := by
  simp only [specScore, codeScore]
  rw [abs_of_nonneg (by positivity)]
  ring

lemma clampRect_spec (w h : ℕ) (X Y W H : ℤ) :
    0 ≤ (clampRect w h X Y W H).1 ∧ 0 ≤ (clampRect w h X Y W H).2.1 ∧
    50 ≤ (clampRect w h X Y W H).2.2.1 ∧ 50 ≤ (clampRect w h X Y W H).2.2.2 ∧
    (clampRect w h X Y W H).1 ≤ max 0 ((w : ℤ) - 10) ∧
    (clampRect w h X Y W H).2.1 ≤ max 0 ((h : ℤ) - 10) ∧
    (clampRect w h X Y W H).1 + (clampRect w h X Y W H).2.2.1 ≤
      max (w : ℤ) ((clampRect w h X Y W H).1 + 50) ∧
    (clampRect w h X Y W H).2.1 + (clampRect w h X Y W H).2.2.2 ≤
      max (h : ℤ) ((clampRect w h X Y W H).2.1 + 50) := by
  simp only [clampRect]
  omega

lemma closer_lt_half {c N : ℚ} (hN : 0 < N) (h : |c - N / 3| < |c - N * 2 / 3|) :
    c < N / 2 := by
  rcases abs_cases (c - N / 3) with ⟨e1, _⟩ | ⟨e1, _⟩ <;>
    rcases abs_cases (c - N * 2 / 3) with ⟨e2, _⟩ | ⟨e2, _⟩ <;> linarith

lemma closer_gt_half {c N : ℚ} (hN : 0 < N) (h : |c - N * 2 / 3| < |c - N / 3|) :
    N / 2 < c := by
  rcases abs_cases (c - N / 3) with ⟨e1, _⟩ | ⟨e1, _⟩ <;>
    rcases abs_cases (c - N * 2 / 3) with ⟨e2, _⟩ | ⟨e2, _⟩ <;> linarith

lemma nearer_left {p c c' : ℚ} (hcc : c ≤ c') (hp : 2 * p ≤ c + c') :
    |p - c| ≤ |p - c'| := by
  rcases abs_cases (p - c) with ⟨e1, _⟩ | ⟨e1, _⟩ <;>
    rcases abs_cases (p - c') with ⟨e2, _⟩ | ⟨e2, _⟩ <;> linarith

lemma nearer_right {p c c' : ℚ} (hcc : c < c') (hp : c + c' < 2 * p) :
    |p - c'| < |p - c| := by
  rcases abs_cases (p - c) with ⟨e1, _⟩ | ⟨e1, _⟩ <;>
    rcases abs_cases (p - c') with ⟨e2, _⟩ | ⟨e2, _⟩ <;> linarith

/-! Trim-loop lemmas. -/

lemma trimLeftGo_noop (img : Img) (Y H : ℤ) (f : ℕ) (X W : ℤ) (h : W ≤ 50) :
    trimLeftGo img Y H f X W = (X, W) := by
  cases f with
  | zero => rfl
  | succ f => simp only [trimLeftGo]; rw [if_neg fun hc => absurd hc.1 (by omega)]

lemma trimRightGo_noop (img : Img) (Y H X : ℤ) (f : ℕ) (W : ℤ) (h : W ≤ 50) :
    trimRightGo img Y H X f W = W := by
  cases f with
  | zero => rfl
  | succ f => simp only [trimRightGo]; rw [if_neg fun hc => absurd hc.1 (by omega)]

lemma trimTopGo_noop (img : Img) (X W : ℤ) (f : ℕ) (Y H : ℤ) (h : H ≤ 50) :
    trimTopGo img X W f Y H = (Y, H) := by
  cases f with
  | zero => rfl
  | succ f => simp only [trimTopGo]; rw [if_neg fun hc => absurd hc.1 (by omega)]

lemma trimBottomGo_noop (img : Img) (X W Y : ℤ) (f : ℕ) (H : ℤ) (h : H ≤ 50) :
    trimBottomGo img X W Y f H = H := by
  cases f with
  | zero => rfl
  | succ f => simp only [trimBottomGo]; rw [if_neg fun hc => absurd hc.1 (by omega)]

lemma trimLeftGo_lower (img : Img) (Y H : ℤ) :
    ∀ (f : ℕ) (X W : ℤ), min W 50 ≤ (trimLeftGo img Y H f X W).2 := by
  intro f
  induction f with
  | zero => intro X W; exact min_le_left W 50
  | succ f ih =>
    intro X W
    simp only [trimLeftGo]
    split_ifs with hc
    · have h50 := hc.1
      have := ih (X + 1) (W - 1)
      omega
    · exact min_le_left W 50

lemma trimRightGo_lower (img : Img) (Y H X : ℤ) :
    ∀ (f : ℕ) (W : ℤ), min W 50 ≤ trimRightGo img Y H X f W := by
  intro f
  induction f with
  | zero => intro W; exact min_le_left W 50
  | succ f ih =>
    intro W
    simp only [trimRightGo]
    split_ifs with hc
    · have h50 := hc.1
      have := ih (W - 1)
      omega
    · exact min_le_left W 50

lemma trimTopGo_lower (img : Img) (X W : ℤ) :
    ∀ (f : ℕ) (Y H : ℤ), min H 50 ≤ (trimTopGo img X W f Y H).2 := by
  intro f
  induction f with
  | zero => intro Y H; exact min_le_left H 50
  | succ f ih =>
    intro Y H
    simp only [trimTopGo]
    split_ifs with hc
    · have h50 := hc.1
      have := ih (Y + 1) (H - 1)
      omega
    · exact min_le_left H 50

lemma trimBottomGo_lower (img : Img) (X W Y : ℤ) :
    ∀ (f : ℕ) (H : ℤ), min H 50 ≤ trimBottomGo img X W Y f H := by
  intro f
  induction f with
  | zero => intro H; exact min_le_left H 50
  | succ f ih =>
    intro H
    simp only [trimBottomGo]
    split_ifs with hc
    · have h50 := hc.1
      have := ih (H - 1)
      omega
    · exact min_le_left H 50

/-! Floor and ceiling of the geometric third marks, as Euclidean divisions. -/

lemma floor_natCast_div3 (n : ℕ) : ⌊(n : ℚ) / 3⌋ = (n : ℤ) / 3 := by
  have h := Rat.floor_intCast_div_natCast (n : ℤ) 3
  simpa using h

lemma ceil_natCast_div3 (n : ℕ) : ⌈(n : ℚ) / 3⌉ = -((-(n : ℤ)) / 3) := by
  have hneg : -((n : ℚ) / 3) = ((-(n : ℤ) : ℤ) : ℚ) / ((3 : ℕ) : ℚ) := by push_cast; ring
  have h2 := Rat.floor_intCast_div_natCast (-(n : ℤ)) 3
  have h3 : ⌊-((n : ℚ) / 3)⌋ = (-(n : ℤ)) / 3 := by rw [hneg, h2]; norm_num
  have h4 : ⌊-((n : ℚ) / 3)⌋ = -⌈(n : ℚ) / 3⌉ := Int.floor_neg
  omega

lemma floor_natCast_mul2_div3 (n : ℕ) : ⌊(n : ℚ) * 2 / 3⌋ = (2 * (n : ℤ)) / 3 := by
  have hcast : (n : ℚ) * 2 / 3 = ((2 * (n : ℤ) : ℤ) : ℚ) / ((3 : ℕ) : ℚ) := by push_cast; ring
  rw [hcast, Rat.floor_intCast_div_natCast]
  norm_num

lemma ceil_natCast_mul2_div3 (n : ℕ) : ⌈(n : ℚ) * 2 / 3⌉ = -((-(2 * (n : ℤ))) / 3) := by
  have hneg : -((n : ℚ) * 2 / 3) = ((-(2 * (n : ℤ)) : ℤ) : ℚ) / ((3 : ℕ) : ℚ) := by
    push_cast; ring
  have h2 := Rat.floor_intCast_div_natCast (-(2 * (n : ℤ))) 3
  have h3 : ⌊-((n : ℚ) * 2 / 3)⌋ = (-(2 * (n : ℤ))) / 3 := by rw [hneg, h2]; norm_num
  have h4 : ⌊-((n : ℚ) * 2 / 3)⌋ = -⌈(n : ℚ) * 2 / 3⌉ := Int.floor_neg
  omega

/-- Cell boundaries produced by the pipeline when an axis has no candidate
line regions: dividers from `selectBestDividers []` and thicknesses from
`getLineThickness []`. -/
def fallbackBounds (N : ℕ) : (ℤ × ℤ) × (ℤ × ℤ) × (ℤ × ℤ) :=
  mkBoundaries (selectBestDividers [] N).1 (selectBestDividers [] N).2
    (getLineThickness [] (selectBestDividers [] N).1)
    (getLineThickness [] (selectBestDividers [] N).2) N

lemma fallbackBounds_eq (N : ℕ) :
    fallbackBounds N =
      ((0, (N : ℤ) / 3), (-((-(N : ℤ)) / 3), (2 * (N : ℤ)) / 3),
        (-((-(2 * (N : ℤ))) / 3), (N : ℤ))) := by
  simp only [fallbackBounds, selectBestDividers, getLineThickness, mkBoundaries,
    Prod.mk.injEq]
  norm_num
  exact ⟨floor_natCast_div3 N, ⟨ceil_natCast_div3 N, floor_natCast_mul2_div3 N⟩,
    ceil_natCast_mul2_div3 N⟩

/-! Claim C1. -/

/-- C1 (amended): after the STEP 9 safety clamp the crop rectangle satisfies
`x ≥ 0`, `y ≥ 0`, `w ≥ 50`, `h ≥ 50`, `x ≤ max 0 (width - 10)`,
`y ≤ max 0 (height - 10)`, `x + w ≤ max width (x + 50)` and
`y + h ≤ max height (y + 50)`.  The originally claimed `x + w ≤ width` and
`y + h ≤ height` bounds fail whenever fewer than 50 pixels remain to the
right of (below) the clamped origin, because `w = max(50, min(w, width - x))`
lets the 50-pixel floor override the fit bound. -/
theorem c1_amended (img : Img) (cx cy : ℚ)
    (hw : 0 < img.width) (hh : 0 < img.height)
    (hcx0 : 0 ≤ cx) (hcx1 : cx ≤ 1) (hcy0 : 0 ≤ cy) (hcy1 : cy ≤ 1) :
    0 ≤ (smartCropFromClick img cx cy).1 ∧ 0 ≤ (smartCropFromClick img cx cy).2.1 ∧
    50 ≤ (smartCropFromClick img cx cy).2.2.1 ∧ 50 ≤ (smartCropFromClick img cx cy).2.2.2 ∧
    (smartCropFromClick img cx cy).1 ≤ max 0 ((img.width : ℤ) - 10) ∧
    (smartCropFromClick img cx cy).2.1 ≤ max 0 ((img.height : ℤ) - 10) ∧
    (smartCropFromClick img cx cy).1 + (smartCropFromClick img cx cy).2.2.1 ≤
      max (img.width : ℤ) ((smartCropFromClick img cx cy).1 + 50) ∧
    (smartCropFromClick img cx cy).2.1 + (smartCropFromClick img cx cy).2.2.2 ≤
      max (img.height : ℤ) ((smartCropFromClick img cx cy).2.1 + 50) := by
  simp only [smartCropFromClick]
  exact clampRect_spec _ _ _ _ _ _

/-- C1 (witness): the amended bounds at the 20×20 all-dark image with a
click at `(0, 0)`. -/
theorem c1_witness :
    0 ≤ (smartCropFromClick darkImg20 0 0).1 ∧ 0 ≤ (smartCropFromClick darkImg20 0 0).2.1 ∧
    50 ≤ (smartCropFromClick darkImg20 0 0).2.2.1 ∧
    50 ≤ (smartCropFromClick darkImg20 0 0).2.2.2 ∧
    (smartCropFromClick darkImg20 0 0).1 ≤ max 0 ((darkImg20.width : ℤ) - 10) ∧
    (smartCropFromClick darkImg20 0 0).2.1 ≤ max 0 ((darkImg20.height : ℤ) - 10) ∧
    (smartCropFromClick darkImg20 0 0).1 + (smartCropFromClick darkImg20 0 0).2.2.1 ≤
      max (darkImg20.width : ℤ) ((smartCropFromClick darkImg20 0 0).1 + 50) ∧
    (smartCropFromClick darkImg20 0 0).2.1 + (smartCropFromClick darkImg20 0 0).2.2.2 ≤
      max (darkImg20.height : ℤ) ((smartCropFromClick darkImg20 0 0).2.1 + 50) :=
  c1_amended darkImg20 0 0 (by norm_num [darkImg20]) (by norm_num [darkImg20])
    (by norm_num) (by norm_num) (by norm_num) (by norm_num)

/-- C1 (counterexample): the 20×20 all-dark image with the valid click
`(0, 0)` yields the crop rectangle `(0, 0, 50, 50)`, which violates
`x + w ≤ width` (50 > 20), so the claimed conjunction fails. -/
theorem c1_counterexample :
    0 < darkImg20.width ∧ 0 < darkImg20.height ∧
    smartCropFromClick darkImg20 0 0 = (0, 0, 50, 50) ∧
    ¬(0 ≤ (smartCropFromClick darkImg20 0 0).1 ∧
      0 ≤ (smartCropFromClick darkImg20 0 0).2.1 ∧
      (smartCropFromClick darkImg20 0 0).1 + (smartCropFromClick darkImg20 0 0).2.2.1 ≤
        (darkImg20.width : ℤ) ∧
      (smartCropFromClick darkImg20 0 0).2.1 + (smartCropFromClick darkImg20 0 0).2.2.2 ≤
        (darkImg20.height : ℤ) ∧
      50 ≤ (smartCropFromClick darkImg20 0 0).2.2.1 ∧
      50 ≤ (smartCropFromClick darkImg20 0 0).2.2.2) := by
  with_unfolding_all decide

/-! Claim C5. -/

/-- C5: with 0 candidate line regions the divider selector returns exactly
`(N/3, 2N/3)`; with exactly 1 candidate, the center of the candidate replaces
whichever ideal position (`N/3` or `2N/3`) it is strictly closer to, and the
geometric value is used for the other position. -/
theorem c5_fallbacks (lines : List LineRegion) (N : ℕ) (hN : 0 < N) :
    (lines = [] → selectBestDividers lines N = ((N : ℚ) / 3, (N : ℚ) * 2 / 3)) ∧
    (∀ l : LineRegion, lines = [l] →
      (|l.center - (N : ℚ) / 3| < |l.center - (N : ℚ) * 2 / 3| →
        selectBestDividers lines N = (l.center, (N : ℚ) * 2 / 3)) ∧
      (|l.center - (N : ℚ) * 2 / 3| < |l.center - (N : ℚ) / 3| →
        selectBestDividers lines N = ((N : ℚ) / 3, l.center))) := by
  have hNq : (0 : ℚ) < (N : ℚ) := by exact_mod_cast hN
  refine ⟨fun h => by subst h; rfl, fun l h => ?_⟩
  subst h
  constructor
  · intro hcl
    have : l.center < (N : ℚ) / 2 := closer_lt_half hNq hcl
    simp only [selectBestDividers]
    rw [if_pos this]
  · intro hcl
    have : (N : ℚ) / 2 < l.center := closer_gt_half hNq hcl
    simp only [selectBestDividers]
    rw [if_neg (by linarith)]

/-- C5 (witness): the zero-candidate fallback at `N = 30`. -/
theorem c5_witness :
    (([] : List LineRegion) = [] →
      selectBestDividers [] 30 = (((30 : ℕ) : ℚ) / 3, ((30 : ℕ) : ℚ) * 2 / 3)) ∧
    (∀ l : LineRegion, ([] : List LineRegion) = [l] →
      (|l.center - ((30 : ℕ) : ℚ) / 3| < |l.center - ((30 : ℕ) : ℚ) * 2 / 3| →
        selectBestDividers [] 30 = (l.center, ((30 : ℕ) : ℚ) * 2 / 3)) ∧
      (|l.center - ((30 : ℕ) : ℚ) * 2 / 3| < |l.center - ((30 : ℕ) : ℚ) / 3| →
        selectBestDividers [] 30 = (((30 : ℕ) : ℚ) / 3, l.center))) :=
  c5_fallbacks [] 30 (by norm_num)

/-! Claim C8. -/

/-- C8: the cell trimmer (a fuelled recursion here, so termination is by
construction) advances an edge only while the remaining dimension exceeds
50px and the edge line passes the 92%-near-white test (threshold 240); as a
consequence a dimension that was at least 50 never drops below 50, and a
dimension already at most 50 is left completely untrimmed. -/
theorem c8_trim_floor (img : Img) (X Y W H : ℤ) :
    (50 ≤ W → 50 ≤ (trimCell img X Y W H).2.2.1) ∧
    (50 ≤ H → 50 ≤ (trimCell img X Y W H).2.2.2) ∧
    (W ≤ 50 → (trimCell img X Y W H).1 = X ∧ (trimCell img X Y W H).2.2.1 = W) ∧
    (H ≤ 50 → (trimCell img X Y W H).2.1 = Y ∧ (trimCell img X Y W H).2.2.2 = H) := by
  have e1 : (trimCell img X Y W H).1 = (trimLeftGo img Y H W.toNat X W).1 := rfl
  have e3 : (trimCell img X Y W H).2.2.1 =
      trimRightGo img Y H (trimLeftGo img Y H W.toNat X W).1
        (trimLeftGo img Y H W.toNat X W).2.toNat (trimLeftGo img Y H W.toNat X W).2 := rfl
  have e2 : (trimCell img X Y W H).2.1 =
      (trimTopGo img (trimLeftGo img Y H W.toNat X W).1 ((trimCell img X Y W H).2.2.1)
        H.toNat Y H).1 := rfl
  have e4 : (trimCell img X Y W H).2.2.2 =
      trimBottomGo img (trimLeftGo img Y H W.toNat X W).1 ((trimCell img X Y W H).2.2.1)
        ((trimTopGo img (trimLeftGo img Y H W.toNat X W).1 ((trimCell img X Y W H).2.2.1)
          H.toNat Y H).1)
        ((trimTopGo img (trimLeftGo img Y H W.toNat X W).1 ((trimCell img X Y W H).2.2.1)
          H.toNat Y H).2).toNat
        ((trimTopGo img (trimLeftGo img Y H W.toNat X W).1 ((trimCell img X Y W H).2.2.1)
          H.toNat Y H).2) := rfl
  refine ⟨?_, ?_, ?_, ?_⟩
  · intro h50
    rw [e3]
    have h1 := trimLeftGo_lower img Y H W.toNat X W
    have h2 := trimRightGo_lower img Y H (trimLeftGo img Y H W.toNat X W).1
      (trimLeftGo img Y H W.toNat X W).2.toNat (trimLeftGo img Y H W.toNat X W).2
    omega
  · intro h50
    rw [e4]
    have h1 := trimTopGo_lower img (trimLeftGo img Y H W.toNat X W).1
      ((trimCell img X Y W H).2.2.1) H.toNat Y H
    have h2 := trimBottomGo_lower img (trimLeftGo img Y H W.toNat X W).1
      ((trimCell img X Y W H).2.2.1)
      ((trimTopGo img (trimLeftGo img Y H W.toNat X W).1 ((trimCell img X Y W H).2.2.1)
        H.toNat Y H).1)
      ((trimTopGo img (trimLeftGo img Y H W.toNat X W).1 ((trimCell img X Y W H).2.2.1)
        H.toNat Y H).2).toNat
      ((trimTopGo img (trimLeftGo img Y H W.toNat X W).1 ((trimCell img X Y W H).2.2.1)
        H.toNat Y H).2)
    omega
  · intro h50
    have hL : trimLeftGo img Y H W.toNat X W = (X, W) := trimLeftGo_noop _ _ _ _ _ _ h50
    constructor
    · rw [e1, hL]
    · rw [e3, hL]
      exact trimRightGo_noop _ _ _ _ _ _ h50
  · intro h50
    have hT : trimTopGo img (trimLeftGo img Y H W.toNat X W).1 ((trimCell img X Y W H).2.2.1)
        H.toNat Y H = (Y, H) := trimTopGo_noop _ _ _ _ _ _ h50
    constructor
    · rw [e2, hT]
    · rw [e4, hT]
      exact trimBottomGo_noop _ _ _ _ _ _ h50

/-- C8 (witness): the trim-floor guarantees at the all-dark 20×20 image and
the starting rectangle `(0, 0, 60, 60)`. -/
theorem c8_witness :
    (50 ≤ (60 : ℤ) → 50 ≤ (trimCell darkImg20 0 0 60 60).2.2.1) ∧
    (50 ≤ (60 : ℤ) → 50 ≤ (trimCell darkImg20 0 0 60 60).2.2.2) ∧
    ((60 : ℤ) ≤ 50 → (trimCell darkImg20 0 0 60 60).1 = 0 ∧
      (trimCell darkImg20 0 0 60 60).2.2.1 = 60) ∧
    ((60 : ℤ) ≤ 50 → (trimCell darkImg20 0 0 60 60).2.1 = 0 ∧
      (trimCell darkImg20 0 0 60 60).2.2.2 = 60) :=
  c8_trim_floor darkImg20 0 0 60 60

/-! Claim C10. -/

/-- C10: if the content-local click coordinate is exactly equidistant from two
of the three cell-range centers on an axis and strictly nearer to these two
than to the remaining one, the resolver selects the lower-indexed of the two
cells: the strict less-than comparison while scanning indices 0, 1, 2 keeps
the first minimum, so ties break toward the top-left. -/
theorem c10_tie_break (b : (ℤ × ℤ) × (ℤ × ℤ) × (ℤ × ℤ)) (p : ℚ) (i j : ℕ)
    (hij : i < j) (hj : j < 3)
    (heq : |p - rangeCenter (boundaryAt b i)| = |p - rangeCenter (boundaryAt b j)|)
    (hmin : ∀ k, k < 3 → k ≠ i → k ≠ j →
      |p - rangeCenter (boundaryAt b i)| < |p - rangeCenter (boundaryAt b k)|) :
    resolveAxis b p = i := by
  have e0 : boundaryAt b 0 = b.1 := rfl
  have e1 : boundaryAt b 1 = b.2.1 := rfl
  have e2 : boundaryAt b 2 = b.2.2 := rfl
  interval_cases j
  · omega
  · interval_cases i
    have hm := hmin 2 (by norm_num) (by norm_num) (by norm_num)
    rw [e0, e1] at heq
    rw [e0, e2] at hm
    simp only [rangeCenter] at heq hm
    simp only [resolveAxis, resGo]
    split_ifs with ha hb hc <;> first | rfl | (exfalso; linarith)
  · interval_cases i
    · have hm := hmin 1 (by norm_num) (by norm_num) (by norm_num)
      rw [e0, e2] at heq
      rw [e0, e1] at hm
      simp only [rangeCenter] at heq hm
      simp only [resolveAxis, resGo]
      split_ifs with ha hb hc <;> first | rfl | (exfalso; linarith)
    · have hm := hmin 0 (by norm_num) (by norm_num) (by norm_num)
      rw [e1, e2] at heq
      rw [e1, e0] at hm
      simp only [rangeCenter] at heq hm
      simp only [resolveAxis, resGo]
      split_ifs with ha hb hc <;> first | rfl | (exfalso; linarith)

/-! Claim C3. -/

/-- C3 (amended): the cell-boundary mapper builds the three ranges
`[0, ⌊d1 - t1/2⌋]`, `[⌈d1 + t1/2⌉, ⌊d2 - t2/2⌋]`, `[⌈d2 + t2/2⌉, N]` with no
clamping whatsoever, so with measured thicknesses a range can have negative
width or start beyond `N` (see the counterexample).  What does hold: a
divider position matching no line region is assigned thickness 0, and in the
pure geometric-fallback case (no candidate lines, `N ≥ 2`) all three ranges
lie within `[0, N]` and have non-negative width. -/
theorem c3_amended :
    (∀ (lines : List LineRegion) (q : ℚ),
      (∀ l ∈ lines, ¬(|l.center - q| < (l.thickness : ℚ))) →
      getLineThickness lines q = 0) ∧
    (∀ N : ℕ, 2 ≤ N → ∀ i, i < 3 →
      0 ≤ (boundaryAt (fallbackBounds N) i).1 ∧
      (boundaryAt (fallbackBounds N) i).1 ≤ (boundaryAt (fallbackBounds N) i).2 ∧
      (boundaryAt (fallbackBounds N) i).2 ≤ (N : ℤ)) := by
  constructor
  · intro lines
    induction lines with
    | nil => intro q _; rfl
    | cons l ls ih =>
      intro q h
      simp only [getLineThickness]
      rw [if_neg (h l (by simp))]
      exact ih q fun m hm => h m (by simp [hm])
  · intro N hN i hi
    rw [fallbackBounds_eq]
    interval_cases i <;> simp only [boundaryAt] <;> norm_num <;> omega

/-- C3 (witness): the amended statement applied at the empty candidate list
(position 5) and at the geometric fallback with `N = 9`. -/
theorem c3_witness :
    getLineThickness [] 5 = 0 ∧
    (0 ≤ (boundaryAt (fallbackBounds 9) 1).1 ∧
      (boundaryAt (fallbackBounds 9) 1).1 ≤ (boundaryAt (fallbackBounds 9) 1).2 ∧
      (boundaryAt (fallbackBounds 9) 1).2 ≤ ((9 : ℕ) : ℤ)) :=
  ⟨c3_amended.1 [] 5 (by simp), c3_amended.2 9 (by norm_num) 1 (by norm_num)⟩

/-- C3 (counterexample): from the profile `prof86` (bright runs `[21, 60)`
and `[61, 65)`, axis length 86) the scan yields two line regions, the
selector returns dividers `40.5 < 63`, and `getLineThickness` measures both
thicknesses as 39 — the fat first run also matches position 63.  The middle
range comes out as `(60, 43)`: its width is negative, refuting the claimed
"each range … has non-negative width" (there is no clamping in the code). -/
theorem c3_counterexample :
    (selectBestDividers (findAllLines prof86 86) 86).1 <
      (selectBestDividers (findAllLines prof86 86) 86).2 ∧
    (mkBoundaries (selectBestDividers (findAllLines prof86 86) 86).1
        (selectBestDividers (findAllLines prof86 86) 86).2
        (getLineThickness (findAllLines prof86 86)
          (selectBestDividers (findAllLines prof86 86) 86).1)
        (getLineThickness (findAllLines prof86 86)
          (selectBestDividers (findAllLines prof86 86) 86).2) 86).2.1 = (60, 43) ∧
    ¬((mkBoundaries (selectBestDividers (findAllLines prof86 86) 86).1
        (selectBestDividers (findAllLines prof86 86) 86).2
        (getLineThickness (findAllLines prof86 86)
          (selectBestDividers (findAllLines prof86 86) 86).1)
        (getLineThickness (findAllLines prof86 86)
          (selectBestDividers (findAllLines prof86 86) 86).2) 86).2.1.1 ≤
      (mkBoundaries (selectBestDividers (findAllLines prof86 86) 86).1
        (selectBestDividers (findAllLines prof86 86) 86).2
        (getLineThickness (findAllLines prof86 86)
          (selectBestDividers (findAllLines prof86 86) 86).1)
        (getLineThickness (findAllLines prof86 86)
          (selectBestDividers (findAllLines prof86 86) 86).2) 86).2.1.2) := by
  with_unfolding_all decide

/-! Claim C6. -/

lemma sum_div_le_of_le {n : ℕ} {g : ℕ → ℚ} (h : ∀ k, g k ≤ 220) :
    (∑ k in Finset.range n, g k) / (n : ℚ) ≤ 220 := by
  rcases Nat.eq_zero_or_pos n with hn | hn
  · subst hn; simp
  · have hsum : (∑ k in Finset.range n, g k) ≤ (n : ℚ) * 220 := by
      calc (∑ k in Finset.range n, g k) ≤ ∑ _k in Finset.range n, (220 : ℚ) :=
            Finset.sum_le_sum fun k _ => h k
        _ = (n : ℚ) * 220 := by simp [mul_comm]
    have hnq : (0 : ℚ) < (n : ℚ) := by exact_mod_cast hn
    rw [div_le_iff₀ hnq]
    linarith

lemma findLinesGo_nil (profile : ℕ → ℚ) (len : ℕ) (h : ∀ i, profile i ≤ 220) :
    ∀ f i, findLinesGo profile len f i none = [] := by
  intro f
  induction f with
  | zero => intro i; rfl
  | succ f ih =>
    intro i
    simp only [findLinesGo]
    rw [if_neg (not_lt.mpr (h i))]
    exact ih (i + 1)

lemma geometric_spans_close (N : ℕ) (i j : ℕ) (hi : i < 3) (hj : j < 3) :
    |cellSpan ((0, (N : ℤ) / 3), (-((-(N : ℤ)) / 3), (2 * (N : ℤ)) / 3),
        (-((-(2 * (N : ℤ))) / 3), (N : ℤ))) i -
      cellSpan ((0, (N : ℤ) / 3), (-((-(N : ℤ)) / 3), (2 * (N : ℤ)) / 3),
        (-((-(2 * (N : ℤ))) / 3), (N : ℤ))) j| ≤ 1 := by
  rw [abs_le]
  interval_cases i <;> interval_cases j <;> (simp only [cellSpan, boundaryAt]; norm_num) <;>
    omega

/-- C6: the pipeline is total, so an axis with zero, one, or more than two
detected gutters produces a result rather than an error (the only
rejection paths of the source are decode failure and a missing drawing context, which lie
outside this pure computation); and for an image with no near-white pixels at
all (every brightness ≤ 220, the gutter threshold) the line scanner finds no
candidates on either axis, the dividers are the exact geometric marks
`(N/3, 2N/3)`, and the three cell widths and three cell heights are equal to
within 1px of each other. -/
theorem c6_no_gutter_geometric (img : Img) (hB : ∀ x y : ℤ, img.B x y ≤ 220) :
    verticalLines img = [] ∧ horizontalLines img = [] ∧
    vDivs img = ((contentWidth img : ℚ) / 3, (contentWidth img : ℚ) * 2 / 3) ∧
    hDivs img = ((contentHeight img : ℚ) / 3, (contentHeight img : ℚ) * 2 / 3) ∧
    (∀ i < 3, ∀ j < 3,
      |cellSpan (colBounds img) i - cellSpan (colBounds img) j| ≤ 1) ∧
    (∀ i < 3, ∀ j < 3,
      |cellSpan (rowBounds img) i - cellSpan (rowBounds img) j| ≤ 1) := by
  have hcol : ∀ x, colAvg img x ≤ 220 := fun x => sum_div_le_of_le fun k => hB _ _
  have hrow : ∀ y, rowAvg img y ≤ 220 := fun y => sum_div_le_of_le fun k => hB _ _
  have hv : verticalLines img = [] := findLinesGo_nil _ _ hcol _ _
  have hhor : horizontalLines img = [] := findLinesGo_nil _ _ hrow _ _
  have hvd0 : vDivs img = selectBestDividers [] (contentWidth img) := by
    unfold vDivs
    rw [hv]
  have hhd0 : hDivs img = selectBestDividers [] (contentHeight img) := by
    unfold hDivs
    rw [hhor]
  have hvd : vDivs img = ((contentWidth img : ℚ) / 3, (contentWidth img : ℚ) * 2 / 3) := by
    rw [hvd0]
    rfl
  have hhd : hDivs img = ((contentHeight img : ℚ) / 3, (contentHeight img : ℚ) * 2 / 3) := by
    rw [hhd0]
    rfl
  have hcb : colBounds img = fallbackBounds (contentWidth img) := by
    unfold colBounds fallbackBounds
    rw [hv, hvd0]
  have hrb : rowBounds img = fallbackBounds (contentHeight img) := by
    unfold rowBounds fallbackBounds
    rw [hhor, hhd0]
  refine ⟨hv, hhor, hvd, hhd, ?_, ?_⟩
  · intro i hi j hj
    rw [hcb, fallbackBounds_eq]
    exact geometric_spans_close _ i j hi hj
  · intro i hi j hj
    rw [hrb, fallbackBounds_eq]
    exact geometric_spans_close _ i j hi hj

/-- C6 (witness): the geometric-cell conclusion at the 30×30 all-dark image. -/
theorem c6_witness :
    verticalLines darkImg30 = [] ∧ horizontalLines darkImg30 = [] ∧
    vDivs darkImg30 = ((contentWidth darkImg30 : ℚ) / 3, (contentWidth darkImg30 : ℚ) * 2 / 3) ∧
    hDivs darkImg30 =
      ((contentHeight darkImg30 : ℚ) / 3, (contentHeight darkImg30 : ℚ) * 2 / 3) ∧
    (∀ i < 3, ∀ j < 3,
      |cellSpan (colBounds darkImg30) i - cellSpan (colBounds darkImg30) j| ≤ 1) ∧
    (∀ i < 3, ∀ j < 3,
      |cellSpan (rowBounds darkImg30) i - cellSpan (rowBounds darkImg30) j| ≤ 1) :=
  c6_no_gutter_geometric darkImg30 (by intro x y; norm_num [darkImg30])

/-! Claim C7. -/

/-- C7 (amended): re-running the border detector on the stripped sub-image
returns zero on every edge whose first content line and its three lookahead
lines fail the 90% near-white test — i.e. whenever the content really starts
with solid content.  Unconditional idempotence is false: on an all-white
image every run strips a further 15% of each dimension (see the
counterexample). -/
theorem c7_amended (img : Img)
    (h : ∀ iv fe : Bool, borderDirect (subImage img) iv fe 0 = false ∧
      ∀ c ∈ ([1, 2, 3] : List ℕ), borderLook (subImage img) iv fe c = false) :
    detectBorder (subImage img) true false = 0 ∧
    detectBorder (subImage img) true true = 0 ∧
    detectBorder (subImage img) false false = 0 ∧
    detectBorder (subImage img) false true = 0 := by
  have key : ∀ (direct look : ℕ → Bool) (ms : ℕ), direct 0 = false →
      look 1 = false → look 2 = false → look 3 = false →
      detectBorderGo direct look ms 0 0 = 0 := by
    intro direct look ms hd h1 h2 h3
    cases ms with
    | zero => rfl
    | succ r => simp [detectBorderGo, hd, h1, h2, h3]
  refine ⟨?_, ?_, ?_, ?_⟩ <;>
    exact key _ _ _ (h _ _).1 ((h _ _).2 1 (by simp)) ((h _ _).2 2 (by simp))
      ((h _ _).2 3 (by simp))

/-- C7 (witness): the amended statement at the 30×30 all-dark image, whose
stripped sub-image starts with solid content on every edge. -/
theorem c7_witness :
    detectBorder (subImage darkImg30) true false = 0 ∧
    detectBorder (subImage darkImg30) true true = 0 ∧
    detectBorder (subImage darkImg30) false false = 0 ∧
    detectBorder (subImage darkImg30) false true = 0 :=
  c7_amended darkImg30 (by with_unfolding_all decide)

/-- C7 (counterexample): on the 60×60 all-white image the first run strips a
9-pixel border on every edge (15% of 60), leaving a 42×42 all-white content
region; re-running the border detector on that sub-image strips a further 6
pixels per edge instead of the claimed zero. -/
theorem c7_counterexample :
    (borderLeft whiteImg60, borderRight whiteImg60, borderTop whiteImg60,
      borderBottom whiteImg60) = (9, 9, 9, 9) ∧
    borderLeft (subImage whiteImg60) = 6 ∧
    ¬(borderLeft (subImage whiteImg60) = 0 ∧ borderRight (subImage whiteImg60) = 0 ∧
      borderTop (subImage whiteImg60) = 0 ∧ borderBottom (subImage whiteImg60) = 0) := by
  with_unfolding_all decide

/-! Claim C2. -/

/-- C2 (amended): when the dividers sit exactly at the canonical third marks
(the geometric fallback, thickness 0), any click strictly inside the
geometric bounds of cell `i` on an axis of length `N > 0` resolves to cell
`i`.  The claimed tolerance of gutters shifted up to 10% off the thirds is
false: nearest-center resolution does not respect the geometric bounds once
the cells are unequal (see the counterexample). -/
theorem c2_amended (N : ℕ) (hN : 0 < N) (p : ℚ) (i : ℕ) (hi : i < 3)
    (hin : ((boundaryAt (fallbackBounds N) i).1 : ℚ) < p ∧
      p < ((boundaryAt (fallbackBounds N) i).2 : ℚ)) :
    resolveAxis (fallbackBounds N) p = i := by
  rw [fallbackBounds_eq] at hin ⊢
  set A : ℤ := (N : ℤ) / 3 with hA
  set B : ℤ := -((-(N : ℤ)) / 3) with hB
  set C : ℤ := (2 * (N : ℤ)) / 3 with hC
  set D : ℤ := -((-(2 * (N : ℤ))) / 3) with hD
  have hN1 : 1 ≤ (N : ℤ) := by exact_mod_cast hN
  have hmod : (N : ℤ) % 3 = 0 ∨ (N : ℤ) % 3 = 1 ∨ (N : ℤ) % 3 = 2 := by omega
  interval_cases i
  · simp only [boundaryAt] at hin
    norm_num at hin
    obtain ⟨hp0, hpA⟩ := hin
    have k1 : A ≤ B + C := by rcases hmod with hm | hm | hm <;> omega
    have k2 : 3 * A ≤ B + C := by rcases hmod with hm | hm | hm <;> omega
    have k3 : A ≤ D + (N : ℤ) := by rcases hmod with hm | hm | hm <;> omega
    have k4 : 3 * A ≤ D + (N : ℤ) := by rcases hmod with hm | hm | hm <;> omega
    have q1 : (A : ℚ) ≤ (B : ℚ) + (C : ℚ) := by exact_mod_cast k1
    have q2 : 3 * (A : ℚ) ≤ (B : ℚ) + (C : ℚ) := by exact_mod_cast k2
    have q3 : (A : ℚ) ≤ (D : ℚ) + (N : ℚ) := by exact_mod_cast k3
    have q4 : 3 * (A : ℚ) ≤ (D : ℚ) + (N : ℚ) := by exact_mod_cast k4
    simp only [resolveAxis, resGo]
    rw [if_neg (not_lt.mpr (nearer_left (by push_cast; linarith) (by push_cast; linarith))),
      if_neg (not_lt.mpr (nearer_left (by push_cast; linarith) (by push_cast; linarith)))]
  · simp only [boundaryAt] at hin
    norm_num at hin
    obtain ⟨hpB, hpC⟩ := hin
    have k1 : A < B + C := by rcases hmod with hm | hm | hm <;> omega
    have k2 : A + C ≤ 3 * B := by rcases hmod with hm | hm | hm <;> omega
    have k3 : B + C ≤ D + (N : ℤ) := by rcases hmod with hm | hm | hm <;> omega
    have k4 : 3 * C ≤ B + D + (N : ℤ) := by rcases hmod with hm | hm | hm <;> omega
    have q1 : (A : ℚ) < (B : ℚ) + (C : ℚ) := by exact_mod_cast k1
    have q2 : (A : ℚ) + (C : ℚ) ≤ 3 * (B : ℚ) := by exact_mod_cast k2
    have q3 : (B : ℚ) + (C : ℚ) ≤ (D : ℚ) + (N : ℚ) := by exact_mod_cast k3
    have q4 : 3 * (C : ℚ) ≤ (B : ℚ) + (D : ℚ) + (N : ℚ) := by exact_mod_cast k4
    simp only [resolveAxis, resGo]
    rw [if_pos (nearer_right (by push_cast; linarith) (by push_cast; linarith)),
      if_neg (not_lt.mpr (nearer_left (by push_cast; linarith) (by push_cast; linarith)))]
  · simp only [boundaryAt] at hin
    norm_num at hin
    obtain ⟨hpD, hpN⟩ := hin
    have k1 : A < B + C := by rcases hmod with hm | hm | hm <;> omega
    have k2 : A + B + C ≤ 4 * D := by rcases hmod with hm | hm | hm <;> omega
    have k3 : B + C < D + (N : ℤ) := by rcases hmod with hm | hm | hm <;> omega
    have k4 : B + C + (N : ℤ) ≤ 3 * D := by rcases hmod with hm | hm | hm <;> omega
    have q1 : (A : ℚ) < (B : ℚ) + (C : ℚ) := by exact_mod_cast k1
    have q2 : (A : ℚ) + (B : ℚ) + (C : ℚ) ≤ 4 * (D : ℚ) := by exact_mod_cast k2
    have q3 : (B : ℚ) + (C : ℚ) < (D : ℚ) + (N : ℚ) := by exact_mod_cast k3
    have q4 : (B : ℚ) + (C : ℚ) + (N : ℚ) ≤ 3 * (D : ℚ) := by exact_mod_cast k4
    simp only [resolveAxis, resGo]
    rw [if_pos (nearer_right (by push_cast; linarith) (by push_cast; linarith)),
      if_pos (nearer_right (by push_cast; linarith) (by push_cast; linarith))]

/-- C2 (witness): on an axis of length 30 with geometric fallback boundaries
`(0,10), (10,20), (20,30)`, the click 15 lies strictly inside cell 1 and
resolves to cell 1. -/
theorem c2_witness : resolveAxis (fallbackBounds 30) 15 = 1 :=
  c2_amended 30 (by norm_num) 15 1 (by norm_num) (by with_unfolding_all decide)

/-- C2 (counterexample): on the 60×60 composite `bandImg60` the detected
gutters are centered at 25 and 35 — within 10% of axis length (6px) of the
canonical marks 20 and 40 — and the click abscissa 23 (clickXPercent = 23/60)
lies strictly inside the geometric bounds `(0, 24)` of column 0, yet the
resolver picks column 1. -/
theorem c2_counterexample :
    vDivs bandImg60 = (25, 35) ∧
    |(25 : ℚ) - (60 : ℚ) / 3| ≤ 6 ∧ |(35 : ℚ) - (60 : ℚ) * 2 / 3| ≤ 6 ∧
    (colBounds bandImg60).1 = (0, 24) ∧
    0 < clickXPx bandImg60 (23 / 60) ∧ clickXPx bandImg60 (23 / 60) < 24 ∧
    targetCol bandImg60 (23 / 60) = 1 := by
  with_unfolding_all decide

/-- C10 (witness): with ranges `(0,2)`, `(2,4)`, `(8,10)` (centers 1, 3, 9)
and click 2, the click is equidistant from centers 1 and 3 and the resolver
returns cell 0. -/
theorem c10_witness :
    resolveAxis ((0, 2), (2, 4), (8, 10)) 2 = 0 :=
  c10_tie_break ((0, 2), (2, 4), (8, 10)) 2 0 1 (by norm_num) (by norm_num)
    (by norm_num [boundaryAt, rangeCenter])
    (by
      intro k hk hk0 hk1
      interval_cases k
      · exact absurd rfl hk0
      · exact absurd rfl hk1
      · norm_num [boundaryAt, rangeCenter])

/-! Machinery for claims C4 and C9: a characterization of the best-pair fold
and sortedness of the output of the run-length scan. -/

lemma selGo_some_spec (N : ℚ) :
    ∀ (ps : List (LineRegion × LineRegion)) (best : ℚ × ℚ) (b : ℚ),
      (selGo N ps best (some b) = best ∧ ∀ r ∈ ps, codeScore N r.1 r.2 ≤ b) ∨
      (∃ pre q post, ps = pre ++ q :: post ∧ b < codeScore N q.1 q.2 ∧
        selGo N ps best (some b) = (q.1.center, q.2.center) ∧
        (∀ r ∈ ps, codeScore N r.1 r.2 ≤ codeScore N q.1 q.2) ∧
        (∀ r ∈ pre, codeScore N r.1 r.2 < codeScore N q.1 q.2)) := by
  intro ps
  induction ps with
  | nil => intro best b; exact Or.inl ⟨rfl, by simp⟩
  | cons q0 tl ih =>
    intro best b
    by_cases hq : b < codeScore N q0.1 q0.2
    · have hstep : selGo N (q0 :: tl) best (some b) =
          selGo N tl (q0.1.center, q0.2.center) (some (codeScore N q0.1 q0.2)) := by
        simp [selGo, hq]
      rcases ih (q0.1.center, q0.2.center) (codeScore N q0.1 q0.2) with
        ⟨heq, hall⟩ | ⟨pre, q, post, hsplit, hlt, heq, hmax, hpre⟩
      · refine Or.inr ⟨[], q0, tl, by simp, hq, by rw [hstep, heq], ?_, by simp⟩
        intro r hr
        rcases List.mem_cons.mp hr with h | h
        · subst h; exact le_refl _
        · exact hall r h
      · refine Or.inr ⟨q0 :: pre, q, post, by simp [hsplit], hq.trans hlt,
          by rw [hstep, heq], ?_, ?_⟩
        · intro r hr
          rcases List.mem_cons.mp hr with h | h
          · subst h; exact hlt.le
          · exact hmax r h
        · intro r hr
          rcases List.mem_cons.mp hr with h | h
          · subst h; exact hlt
          · exact hpre r h
    · have hstep : selGo N (q0 :: tl) best (some b) = selGo N tl best (some b) := by
        simp [selGo, hq]
      rcases ih best b with ⟨heq, hall⟩ | ⟨pre, q, post, hsplit, hlt, heq, hmax, hpre⟩
      · refine Or.inl ⟨by rw [hstep, heq], ?_⟩
        intro r hr
        rcases List.mem_cons.mp hr with h | h
        · subst h; exact not_lt.mp hq
        · exact hall r h
      · refine Or.inr ⟨q0 :: pre, q, post, by simp [hsplit], hlt,
          by rw [hstep, heq], ?_, ?_⟩
        · intro r hr
          rcases List.mem_cons.mp hr with h | h
          · subst h; exact (not_lt.mp hq).trans hlt.le
          · exact hmax r h
        · intro r hr
          rcases List.mem_cons.mp hr with h | h
          · subst h; exact lt_of_le_of_lt (not_lt.mp hq) hlt
          · exact hpre r h

lemma selGo_none_spec (N : ℚ) (ps : List (LineRegion × LineRegion)) (best : ℚ × ℚ)
    (hne : ps ≠ []) :
    ∃ pre q post, ps = pre ++ q :: post ∧
      selGo N ps best none = (q.1.center, q.2.center) ∧
      (∀ r ∈ ps, codeScore N r.1 r.2 ≤ codeScore N q.1 q.2) ∧
      (∀ r ∈ pre, codeScore N r.1 r.2 < codeScore N q.1 q.2) := by
  cases ps with
  | nil => exact absurd rfl hne
  | cons q0 tl =>
    have hstep : selGo N (q0 :: tl) best none =
        selGo N tl (q0.1.center, q0.2.center) (some (codeScore N q0.1 q0.2)) := rfl
    rcases selGo_some_spec N tl (q0.1.center, q0.2.center) (codeScore N q0.1 q0.2) with
      ⟨heq, hall⟩ | ⟨pre, q, post, hsplit, hlt, heq, hmax, hpre⟩
    · refine ⟨[], q0, tl, by simp, by rw [hstep, heq], ?_, by simp⟩
      intro r hr
      rcases List.mem_cons.mp hr with h | h
      · subst h; exact le_refl _
      · exact hall r h
    · refine ⟨q0 :: pre, q, post, by simp [hsplit], by rw [hstep, heq], ?_, ?_⟩
      · intro r hr
        rcases List.mem_cons.mp hr with h | h
        · subst h; exact hlt.le
        · exact hmax r h
      · intro r hr
        rcases List.mem_cons.mp hr with h | h
        · subst h; exact hlt
        · exact hpre r h

lemma pairsOf_rel {R : LineRegion → LineRegion → Prop} :
    ∀ l : List LineRegion, l.Pairwise R → ∀ q ∈ pairsOf l, R q.1 q.2 := by
  intro l
  induction l with
  | nil => intro _ q hq; simp [pairsOf] at hq
  | cons x xs ih =>
    intro hp q hq
    rw [List.pairwise_cons] at hp
    simp only [pairsOf, List.mem_append, List.mem_map] at hq
    rcases hq with ⟨y, hy, rfl⟩ | hq
    · exact hp.1 y hy
    · exact ih hp.2 q hq

/-- Lower bound on run starts implied by the scan state. -/
def curLB (i : ℕ) : Option (ℕ × ℚ) → ℕ
  | none => i
  | some s => s.1

lemma findLinesGo_mem (profile : ℕ → ℚ) (len : ℕ) :
    ∀ (f i : ℕ) (cur : Option (ℕ × ℚ)), (∀ s, cur = some s → s.1 ≤ i) →
      ∀ l ∈ findLinesGo profile len f i cur,
        curLB i cur ≤ l.start ∧ l.start + 2 ≤ l.stop ∧
        l.center = ((l.start : ℚ) + (l.stop : ℚ)) / 2 := by
  intro f
  induction f with
  | zero => intro i cur hcur l hl; simp [findLinesGo] at hl
  | succ f ih =>
    intro i cur hcur l hl
    rcases cur with _ | s
    · by_cases hp : 220 < profile i
      · rw [findLinesGo, if_pos hp] at hl
        have h1 := ih (i + 1) (some (i, profile i)) (by rintro s hs; rw [Option.some.injEq] at hs; subst hs; show i ≤ i + 1; omega) l hl
        exact ⟨h1.1, h1.2⟩
      · rw [findLinesGo, if_neg hp] at hl
        have h1 := ih (i + 1) none (by rintro s h; cases h) l hl
        refine ⟨?_, h1.2⟩
        have := h1.1
        simp only [curLB] at this ⊢
        omega
    · have hsi : s.1 ≤ i := hcur s rfl
      by_cases hp : 220 < profile i
      · rw [findLinesGo, if_pos hp] at hl
        have h1 := ih (i + 1) (some (s.1, s.2 + profile i)) (by rintro u hu; rw [Option.some.injEq] at hu; subst hu; show s.1 ≤ i + 1; omega) l hl
        exact ⟨h1.1, h1.2⟩
      · by_cases hreg : 2 ≤ i - s.1 ∧ 20 < s.1 ∧ i < len - 20
        · rw [findLinesGo, if_neg hp, if_pos hreg] at hl
          rcases List.mem_cons.mp hl with h | h
          · subst h
            refine ⟨?_, ?_, rfl⟩
            · show s.1 ≤ s.1
              exact le_refl _
            · show s.1 + 2 ≤ i
              omega
          · have h1 := ih (i + 1) none (by rintro u hu; cases hu) l h
            refine ⟨?_, h1.2⟩
            have := h1.1
            simp only [curLB] at this ⊢
            omega
        · rw [findLinesGo, if_neg hp, if_neg hreg] at hl
          have h1 := ih (i + 1) none (by rintro u hu; cases hu) l hl
          refine ⟨?_, h1.2⟩
          have := h1.1
          simp only [curLB] at this ⊢
          omega

lemma findLinesGo_sorted (profile : ℕ → ℚ) (len : ℕ) :
    ∀ (f i : ℕ) (cur : Option (ℕ × ℚ)), (∀ s, cur = some s → s.1 ≤ i) →
      (findLinesGo profile len f i cur).Pairwise fun a b => a.center < b.center := by
  intro f
  induction f with
  | zero => intro i cur _; exact List.Pairwise.nil
  | succ f ih =>
    intro i cur hcur
    rcases cur with _ | s
    · by_cases hp : 220 < profile i
      · rw [findLinesGo, if_pos hp]
        exact ih (i + 1) (some (i, profile i)) (by rintro s hs; rw [Option.some.injEq] at hs; subst hs; show i ≤ i + 1; omega)
      · rw [findLinesGo, if_neg hp]
        exact ih (i + 1) none (by rintro s h; cases h)
    · have hsi : s.1 ≤ i := hcur s rfl
      by_cases hp : 220 < profile i
      · rw [findLinesGo, if_pos hp]
        exact ih (i + 1) (some (s.1, s.2 + profile i)) (by rintro u hu; rw [Option.some.injEq] at hu; subst hu; show s.1 ≤ i + 1; omega)
      · by_cases hreg : 2 ≤ i - s.1 ∧ 20 < s.1 ∧ i < len - 20
        · rw [findLinesGo, if_neg hp, if_pos hreg]
          refine List.Pairwise.cons ?_ (ih (i + 1) none (by rintro u hu; cases hu))
          intro b hb
          have hm := findLinesGo_mem profile len f (i + 1) none (by rintro u hu; cases hu) b hb
          have hb1 : i + 1 ≤ b.start := hm.1
          have hb2 : b.start + 2 ≤ b.stop := hm.2.1
          show ((s.1 : ℚ) + (i : ℚ)) / 2 < b.center
          rw [hm.2.2]
          have hlt : (s.1 + i : ℕ) < b.start + b.stop := by omega
          have hltq : ((s.1 : ℚ) + (i : ℚ)) < (b.start : ℚ) + (b.stop : ℚ) := by
            exact_mod_cast hlt
          linarith
        · rw [findLinesGo, if_neg hp, if_neg hreg]
          exact ih (i + 1) none (by rintro u hu; cases hu)

lemma selectBestDividers_ordered (lines : List LineRegion) (N : ℕ) (hN : 0 < N)
    (hsort : lines.Pairwise fun a b => a.center < b.center) :
    (selectBestDividers lines N).1 < (selectBestDividers lines N).2 := by
  have hNq : (0 : ℚ) < (N : ℚ) := by exact_mod_cast hN
  rcases lines with _ | ⟨a, _ | ⟨b, _ | ⟨c, t⟩⟩⟩
  · simp only [selectBestDividers]
    linarith
  · simp only [selectBestDividers]
    split_ifs with hc
    · simp only
      linarith
    · simp only
      have := not_lt.mp hc
      linarith
  · have hab : a.center < b.center := by
      rw [List.pairwise_cons] at hsort
      exact hsort.1 b (by simp)
    simp only [selectBestDividers]
    rw [if_pos hab.le]
    exact hab
  · obtain ⟨pre, q, post, hsplit, heq, hmax, hpre⟩ :=
      selGo_none_spec (N : ℚ) (pairsOf (a :: b :: c :: t)) ((N : ℚ) / 3, (N : ℚ) * 2 / 3)
        (by simp [pairsOf])
    have hqmem : q ∈ pairsOf (a :: b :: c :: t) := by rw [hsplit]; simp
    have hlt := pairsOf_rel _ hsort q hqmem
    have hsel : selectBestDividers (a :: b :: c :: t) N =
        selGo (N : ℚ) (pairsOf (a :: b :: c :: t)) ((N : ℚ) / 3, (N : ℚ) * 2 / 3) none := rfl
    rw [hsel, heq]
    exact hlt

/-! Claim C4. -/

/-- C4: whenever more than 2 candidate line regions exist, the selector
returns the centers of a pair `q` occurring in the `i<j` pair enumeration
(`pairsOf`, outer index ascending, inner index ascending), `q` attains the
maximum of the score formula of the claim,
`-|cellSizeVariance|*2 - |posA - N/3| - |posB - 2N/3|
 + 0.5*(tA + tB) + 0.1*(brA + brB)` over all enumerated pairs, and every
pair enumerated strictly before `q` scores strictly less — so on ties the
first maximizer in enumeration order wins. -/
theorem c4_selection (lines : List LineRegion) (N : ℕ) (h : 2 < lines.length) :
    ∃ pre q post, pairsOf lines = pre ++ q :: post ∧
      selectBestDividers lines N = (q.1.center, q.2.center) ∧
      (∀ r ∈ pairsOf lines, specScore (N : ℚ) r.1 r.2 ≤ specScore (N : ℚ) q.1 q.2) ∧
      (∀ r ∈ pre, specScore (N : ℚ) r.1 r.2 < specScore (N : ℚ) q.1 q.2) := by
  rcases lines with _ | ⟨a, _ | ⟨b, _ | ⟨c, t⟩⟩⟩
  · simp at h
  · simp at h
  · simp at h
  · have hsel : selectBestDividers (a :: b :: c :: t) N =
        selGo (N : ℚ) (pairsOf (a :: b :: c :: t)) ((N : ℚ) / 3, (N : ℚ) * 2 / 3) none := rfl
    obtain ⟨pre, q, post, hsplit, heq, hmax, hpre⟩ :=
      selGo_none_spec (N : ℚ) (pairsOf (a :: b :: c :: t)) ((N : ℚ) / 3, (N : ℚ) * 2 / 3)
        (by simp [pairsOf])
    refine ⟨pre, q, post, hsplit, by rw [hsel, heq], ?_, ?_⟩
    · intro r hr
      rw [specScore_eq_codeScore, specScore_eq_codeScore]
      exact hmax r hr
    · intro r hr
      rw [specScore_eq_codeScore, specScore_eq_codeScore]
      exact hpre r hr

/-- A concrete 3-candidate list used to witness C4. -/
def lines3 : List LineRegion :=
  [⟨21, 23, 22, 2, 230⟩, ⟨40, 44, 42, 4, 250⟩, ⟨70, 74, 72, 4, 250⟩]

/-- C4 (witness): the first-maximizer characterization at the concrete
3-candidate list `lines3` on an axis of length 120. -/
theorem c4_witness :
    ∃ pre q post, pairsOf lines3 = pre ++ q :: post ∧
      selectBestDividers lines3 120 = (q.1.center, q.2.center) ∧
      (∀ r ∈ pairsOf lines3, specScore ((120 : ℕ) : ℚ) r.1 r.2 ≤
        specScore ((120 : ℕ) : ℚ) q.1 q.2) ∧
      (∀ r ∈ pre, specScore ((120 : ℕ) : ℚ) r.1 r.2 < specScore ((120 : ℕ) : ℚ) q.1 q.2) :=
  c4_selection lines3 120 (by norm_num [lines3])

/-! Claim C9. -/

/-- C9: for every profile and axis length `N > 0`, the divider pair returned
by the selector on the candidate list of the run-length scan satisfies
`first < second`, in all four cases (zero, one, two and more than two
candidates).  The scan output is strictly ascending in center position,
which feeds the two-candidate sort and the pair enumeration. -/
theorem c9_dividers_ordered (profile : ℕ → ℚ) (N : ℕ) (hN : 0 < N) :
    (selectBestDividers (findAllLines profile N) N).1 <
      (selectBestDividers (findAllLines profile N) N).2 :=
  selectBestDividers_ordered _ N hN
    (findLinesGo_sorted profile N N 0 none (by rintro s h; cases h))

/-- C9 (witness): the all-dark profile on an axis of length 30 (zero
candidates) yields dividers `10 < 20`. -/
theorem c9_witness :
    (selectBestDividers (findAllLines (fun _ => 0) 30) 30).1 <
      (selectBestDividers (findAllLines (fun _ => 0) 30) 30).2 :=
  c9_dividers_ordered (fun _ => 0) 30 (by norm_num)

end SmartCrop
